import Mathlib

/-!
Verification of the lockstep-mcp coordination store and worktree manager.

The definitions below are a shallow embedding of the TypeScript source:

* the entity model and both store backends come from `storage.ts`
  (the final revision, with review workflow, complexity and discussions);
* the gateway handlers that emit the "all tasks complete" system note
  come from `server.ts`;
* the worktree merge protocol comes from `worktree.ts`.

Modelling conventions:

* `nowIso()` and `crypto.randomUUID()` are nondeterministic in the source;
  every operation that calls them takes the produced value (`now`, `id`)
  as an explicit argument, which makes the operations deterministic.
* Fallible operations return `Except String (result × State)`.  In the
  source every failure is a `throw` executed before any write to the
  state document / database, so an `.error` result carries no new state:
  the caller's state is unchanged.
* SQLite tables are modelled as lists kept in insertion order.  Rows are
  inserted with `created_at` set to the current clock, so insertion order
  coincides with `created_at` order and `ORDER BY created_at ASC` is the
  identity on the modelled table.
* `PRIMARY KEY` columns are modelled faithfully: an `INSERT` whose key is
  already present fails with the `UNIQUE constraint failed` error that
  better-sqlite3 raises.
* JavaScript truthiness tests on optional strings (`if (input.owner && ...)`)
  are modelled by `optTruthy`, which is false exactly on `none` and `some ""`.
-/

namespace Lockstep

/-- `status` of a task: `"todo" | "in_progress" | "blocked" | "review" | "done"`. -/
inductive TaskStatus where
  | todo
  | in_progress
  | blocked
  | review
  | done
deriving DecidableEq

/-- `complexity` of a task: `"simple" | "medium" | "complex" | "critical"`. -/
inductive TaskComplexity where
  | simple
  | medium
  | complex
  | critical
deriving DecidableEq

/-- `isolation` of a task: `"shared" | "worktree"`. -/
inductive TaskIsolation where
  | shared
  | worktree
deriving DecidableEq

/-- `status` of a lock: `"active" | "resolved"`. -/
inductive LockStatus where
  | active
  | resolved
deriving DecidableEq

/-- String rendering of a task status, as it appears in error messages. -/
def TaskStatus.toStr : TaskStatus → String
  | .todo => "todo"
  | .in_progress => "in_progress"
  | .blocked => "blocked"
  | .review => "review"
  | .done => "done"

/-- The `Task` entity.  `tags` is the parsed string array and `metadata`
is kept as the opaque serialized text that the sqlite row stores. -/
structure Task where
  id : String
  title : String
  description : Option String := none
  status : TaskStatus := .todo
  complexity : TaskComplexity := .medium
  isolation : TaskIsolation := .shared
  owner : Option String := none
  tags : Option (List String) := none
  metadata : Option String := none
  reviewNotes : Option String := none
  reviewFeedback : Option String := none
  reviewRequestedAt : Option String := none
  createdAt : String
  updatedAt : String
deriving DecidableEq

/-- The `Lock` entity. -/
structure Lock where
  path : String
  owner : Option String := none
  note : Option String := none
  status : LockStatus
  createdAt : String
  updatedAt : String
deriving DecidableEq

/-- The `Note` entity. -/
structure Note where
  id : String
  text : String
  author : Option String := none
  createdAt : String
deriving DecidableEq

/-- The shared `State` document: tasks, locks and notes.  For the sqlite
backend the three lists model the three tables in insertion order. -/
structure State where
  tasks : List Task := []
  locks : List Lock := []
  notes : List Note := []
deriving DecidableEq

/-- JavaScript truthiness of an optional string: `undefined`/absent and
the empty string are falsy, every other string is truthy. -/
def optTruthy : Option String → Bool
  | none => false
  | some s => !(s == "")

/-- Rendering of a nullable column inside a template literal: JavaScript
prints `null` for a missing value. -/
def optOwnerStr : Option String → String
  | none => "null"
  | some s => s

/-- Replace the first element satisfying `pred` by its image under `f`
(the JSON backend mutates the object returned by `Array.find`). -/
def updateFirst (pred : α → Bool) (f : α → α) : List α → List α
  | [] => []
  | x :: xs => if pred x then f x :: xs else x :: updateFirst pred f xs

/-- `new ?? old` field update for an optional field: the source only
assigns the field when the input property is not `undefined`. -/
def updOpt (new old : Option α) : Option α :=
  match new with
  | some v => some v
  | none => old

/-- Is there an active lock for `p` in the lock table?  This is the
existence check both backends run before inserting
(`locks.find(l => l.path === p && l.status === "active")` /
`SELECT * FROM locks WHERE path = ? AND status = 'active'`). -/
def hasActiveLock (s : State) (p : String) : Bool :=
  s.locks.any fun l => l.path == p && l.status == LockStatus.active

/-- First active lock for `p`, the row the release path operates on. -/
def findActiveLock (s : State) (p : String) : Option Lock :=
  s.locks.find? fun l => l.path == p && l.status == LockStatus.active

/-- The fresh active lock value both backends construct for an acquire. -/
def newLock (p : String) (owner note : Option String) (now : String) : Lock :=
  { path := p, owner := owner, note := note, status := .active
    createdAt := now, updatedAt := now }

/-- `JsonStore.acquireLock`: under the state mutex, fail if an active
lock for the path exists, otherwise push a fresh active lock. -/
def JsonStore.acquireLock (s : State) (p : String) (owner note : Option String)
    (now : String) : Except String (Lock × State) :=
  if hasActiveLock s p then
    .error ("Lock already active for " ++ p)
  else
    .ok (newLock p owner note now,
      { s with locks := s.locks ++ [newLock p owner note now] })

/-- `SqliteStore.acquireLock`: one transaction doing the active-lock
check and then an `INSERT INTO locks`.  The `locks` table declares
`path TEXT PRIMARY KEY`, so the insert itself fails whenever any row
(active or resolved) already exists for the path. -/
def SqliteStore.acquireLock (s : State) (p : String) (owner note : Option String)
    (now : String) : Except String (Lock × State) :=
  if hasActiveLock s p then
    .error ("Lock already active for " ++ p)
  else if s.locks.any (fun l => l.path == p) then
    .error "UNIQUE constraint failed: locks.path"
  else
    .ok (newLock p owner note now,
      { s with locks := s.locks ++ [newLock p owner note now] })

/-- The ownership-mismatch error message of `releaseLock`. -/
def lockMismatchMsg (lockOwner caller : Option String) : String :=
  "Lock owned by " ++ optOwnerStr lockOwner ++ ", not " ++ optOwnerStr caller

/-- `JsonStore.releaseLock`: find the first active lock for the path
(error if none), reject a truthy caller owner differing from a truthy
lock owner, otherwise flip that lock to resolved in place. -/
def JsonStore.releaseLock (s : State) (p : String) (owner : Option String)
    (now : String) : Except String (Lock × State) :=
  match findActiveLock s p with
  | none => .error ("Active lock not found for " ++ p)
  | some lock =>
    if optTruthy owner = true ∧ optTruthy lock.owner = true ∧ ¬ owner = lock.owner then
      .error (lockMismatchMsg lock.owner owner)
    else
      .ok ({ lock with status := .resolved, updatedAt := now },
        { s with locks :=
            (updateFirst
              (fun l => l.path == p && l.status == LockStatus.active)
              (fun l => { l with status := .resolved, updatedAt := now }) s.locks) })

/-- `SqliteStore.releaseLock`: same find and ownership check, then
`UPDATE locks SET status = ?, updated_at = ? WHERE path = ?`, which
touches every row whose path matches. -/
def SqliteStore.releaseLock (s : State) (p : String) (owner : Option String)
    (now : String) : Except String (Lock × State) :=
  match findActiveLock s p with
  | none => .error ("Active lock not found for " ++ p)
  | some lock =>
    if optTruthy owner = true ∧ optTruthy lock.owner = true ∧ ¬ owner = lock.owner then
      .error (lockMismatchMsg lock.owner owner)
    else
      .ok ({ lock with status := .resolved, updatedAt := now },
        { s with locks := s.locks.map fun l =>
            if l.path == p then { l with status := .resolved, updatedAt := now } else l })

/-- A lock-coordination operation together with the nondeterministic
inputs (clock values) of its execution. -/
inductive LockOp where
  | acquire (p : String) (owner note : Option String) (now : String)
  | release (p : String) (owner : Option String) (now : String)

/-- Apply one lock operation to the JSON store; a thrown error leaves
the state document untouched. -/
def JsonStore.applyLockOp (s : State) (op : LockOp) : State :=
  match op with
  | .acquire p o n now =>
    match JsonStore.acquireLock s p o n now with
    | .ok (_, s2) => s2
    | .error _ => s
  | .release p o now =>
    match JsonStore.releaseLock s p o now with
    | .ok (_, s2) => s2
    | .error _ => s

/-- Apply one lock operation to the sqlite store. -/
def SqliteStore.applyLockOp (s : State) (op : LockOp) : State :=
  match op with
  | .acquire p o n now =>
    match SqliteStore.acquireLock s p o n now with
    | .ok (_, s2) => s2
    | .error _ => s
  | .release p o now =>
    match SqliteStore.releaseLock s p o now with
    | .ok (_, s2) => s2
    | .error _ => s

/-- Run a sequence of lock operations against the JSON store, starting
from the empty state. -/
def JsonStore.runLockOps (ops : List LockOp) : State :=
  ops.foldl JsonStore.applyLockOp {}

/-- Run a sequence of lock operations against the sqlite store. -/
def SqliteStore.runLockOps (ops : List LockOp) : State :=
  ops.foldl SqliteStore.applyLockOp {}

/-- Number of active locks recorded for path `p`. -/
def activeLockCount (locks : List Lock) (p : String) : Nat :=
  locks.countP fun l => l.path == p && l.status == LockStatus.active

/-- Input of `createTask`; absent properties are `none`. -/
structure CreateTaskInput where
  title : String
  description : Option String := none
  status : Option TaskStatus := none
  complexity : Option TaskComplexity := none
  isolation : Option TaskIsolation := none
  owner : Option String := none
  tags : Option (List String) := none
  metadata : Option String := none

/-- Input of `updateTask`; an absent property leaves the field alone. -/
structure TaskUpdate where
  id : String
  title : Option String := none
  description : Option String := none
  status : Option TaskStatus := none
  complexity : Option TaskComplexity := none
  isolation : Option TaskIsolation := none
  owner : Option String := none
  tags : Option (List String) := none
  metadata : Option String := none
  reviewNotes : Option String := none
  reviewFeedback : Option String := none
  reviewRequestedAt : Option String := none

/-- The task record both backends build in `createTask`:
`status ?? "todo"`, `complexity ?? "medium"`, `isolation ?? "shared"`,
review fields unset, both timestamps the current clock. -/
def buildTask (input : CreateTaskInput) (id now : String) : Task :=
  { id := id, title := input.title, description := input.description
    status := input.status.getD .todo
    complexity := input.complexity.getD .medium
    isolation := input.isolation.getD .shared
    owner := input.owner, tags := input.tags, metadata := input.metadata
    createdAt := now, updatedAt := now }

/-- `JsonStore.createTask`: push the new task onto the state document.
Note that the JSON backend stores `complexity` and `isolation` exactly
like the sqlite backend does. -/
def JsonStore.createTask (s : State) (input : CreateTaskInput) (id now : String) :
    Task × State :=
  (buildTask input id now, { s with tasks := s.tasks ++ [buildTask input id now] })

/-- `SqliteStore.createTask`: `INSERT INTO tasks ...` with `id` primary key. -/
def SqliteStore.createTask (s : State) (input : CreateTaskInput) (id now : String) :
    Except String (Task × State) :=
  if s.tasks.any (fun t => t.id == id) then
    .error "UNIQUE constraint failed: tasks.id"
  else
    .ok (buildTask input id now, { s with tasks := s.tasks ++ [buildTask input id now] })

/-- Apply the subset of `TaskUpdate` fields that `JsonStore.updateTask`
assigns: title, description, status, owner, tags, metadata.  The JSON
backend ignores complexity, isolation and the review fields. -/
def jsonApplyUpdate (t : Task) (u : TaskUpdate) (now : String) : Task :=
  { t with
    title := u.title.getD t.title
    description := updOpt u.description t.description
    status := u.status.getD t.status
    owner := updOpt u.owner t.owner
    tags := updOpt u.tags t.tags
    metadata := updOpt u.metadata t.metadata
    updatedAt := now }

/-- `JsonStore.updateTask`: find the task by id (error if absent), apply
the supported fields in place, stamp `updatedAt`. -/
def JsonStore.updateTask (s : State) (u : TaskUpdate) (now : String) :
    Except String (Task × State) :=
  match s.tasks.find? (fun t => t.id == u.id) with
  | none => .error ("Task not found: " ++ u.id)
  | some t =>
    .ok (jsonApplyUpdate t u now,
      { s with tasks :=
          (updateFirst (fun x => x.id == u.id) (fun _ => jsonApplyUpdate t u now) s.tasks) })

/-- `JsonStore.claimTask` delegates to `updateTask` with the owner and
`status: "in_progress"`; there is no ownership check. -/
def JsonStore.claimTask (s : State) (id owner now : String) :
    Except String (Task × State) :=
  JsonStore.updateTask s { id := id, owner := some owner, status := some .in_progress } now

/-- Apply every `TaskUpdate` field the sqlite backend assigns. -/
def sqliteApplyUpdate (t : Task) (u : TaskUpdate) (now : String) : Task :=
  { t with
    title := u.title.getD t.title
    description := updOpt u.description t.description
    status := u.status.getD t.status
    complexity := u.complexity.getD t.complexity
    isolation := u.isolation.getD t.isolation
    owner := updOpt u.owner t.owner
    tags := updOpt u.tags t.tags
    metadata := updOpt u.metadata t.metadata
    reviewNotes := updOpt u.reviewNotes t.reviewNotes
    reviewFeedback := updOpt u.reviewFeedback t.reviewFeedback
    reviewRequestedAt := updOpt u.reviewRequestedAt t.reviewRequestedAt
    updatedAt := now }

/-- `SqliteStore.updateTask`: `SELECT` the row by id (error if absent),
apply the supplied fields, then `UPDATE tasks SET ... WHERE id = ?`. -/
def SqliteStore.updateTask (s : State) (u : TaskUpdate) (now : String) :
    Except String (Task × State) :=
  match s.tasks.find? (fun t => t.id == u.id) with
  | none => .error ("Task not found: " ++ u.id)
  | some t =>
    .ok (sqliteApplyUpdate t u now,
      { s with tasks :=
          (s.tasks.map fun x => if x.id == u.id then sqliteApplyUpdate t u now else x) })

/-- `SqliteStore.claimTask` delegates to `updateTask`. -/
def SqliteStore.claimTask (s : State) (id owner now : String) :
    Except String (Task × State) :=
  SqliteStore.updateTask s { id := id, owner := some owner, status := some .in_progress } now

/-- `SqliteStore.submitTaskForReview`: the task must exist and its
current owner must be strictly equal to the caller (`row.owner !==
input.owner`, where a null owner never equals a string); on success
delegate to `updateTask` with `status: "review"`, the review notes and
the request timestamp. -/
def SqliteStore.submitTaskForReview (s : State) (id owner reviewNotes now : String) :
    Except String (Task × State) :=
  match s.tasks.find? (fun t => t.id == id) with
  | none => .error ("Task not found: " ++ id)
  | some row =>
    if ¬ row.owner = some owner then
      .error ("Task owned by " ++ optOwnerStr row.owner ++ ", not " ++ owner)
    else
      SqliteStore.updateTask s
        { id := id, status := some .review, reviewNotes := some reviewNotes
          reviewRequestedAt := some now } now

/-- `SqliteStore.approveTask`: the task must exist and be in review;
on success set `status: "done"` and `reviewFeedback: feedback ?? "Approved"`. -/
def SqliteStore.approveTask (s : State) (id : String) (feedback : Option String)
    (now : String) : Except String (Task × State) :=
  match s.tasks.find? (fun t => t.id == id) with
  | none => .error ("Task not found: " ++ id)
  | some row =>
    if ¬ row.status = TaskStatus.review then
      .error ("Task is not in review status (current: " ++ row.status.toStr ++ ")")
    else
      SqliteStore.updateTask s
        { id := id, status := some .done, reviewFeedback := some (feedback.getD "Approved") } now

/-- `SqliteStore.requestTaskChanges`: the task must exist and be in
review; on success send it back to `in_progress` with the feedback. -/
def SqliteStore.requestTaskChanges (s : State) (id feedback now : String) :
    Except String (Task × State) :=
  match s.tasks.find? (fun t => t.id == id) with
  | none => .error ("Task not found: " ++ id)
  | some row =>
    if ¬ row.status = TaskStatus.review then
      .error ("Task is not in review status (current: " ++ row.status.toStr ++ ")")
    else
      SqliteStore.updateTask s
        { id := id, status := some .in_progress, reviewFeedback := some feedback } now

/-- `JsonStore.submitTaskForReview` stub: the JSON backend rejects the
review workflow outright. -/
def JsonStore.submitTaskForReview : Except String (Task × State) :=
  .error "Review workflow requires SQLite storage. Set storage: \x27sqlite\x27 in config."

/-- `JsonStore.approveTask` stub. -/
def JsonStore.approveTask : Except String (Task × State) :=
  .error "Review workflow requires SQLite storage."

/-- `JsonStore.requestTaskChanges` stub. -/
def JsonStore.requestTaskChanges : Except String (Task × State) :=
  .error "Review workflow requires SQLite storage."

/-- `JsonStore.createDiscussion` stub: discussions are sqlite-only. -/
def JsonStore.createDiscussion : Except String Unit :=
  .error "Discussion features require SQLite storage. Set storage: \x27sqlite\x27 in config."

/-- `JsonStore.replyToDiscussion` stub. -/
def JsonStore.replyToDiscussion : Except String Unit :=
  .error "Discussion features require SQLite storage."

/-- `JsonStore.resolveDiscussion` stub. -/
def JsonStore.resolveDiscussion : Except String Unit :=
  .error "Discussion features require SQLite storage."

/-- `JsonStore.getDiscussion` stub. -/
def JsonStore.getDiscussion : Except String Unit :=
  .error "Discussion features require SQLite storage."

/-- `JsonStore.listDiscussions` stub. -/
def JsonStore.listDiscussions : Except String Unit :=
  .error "Discussion features require SQLite storage."

/-- `JsonStore.archiveDiscussion` stub. -/
def JsonStore.archiveDiscussion : Except String Unit :=
  .error "Discussion features require SQLite storage."

/-- `JsonStore.archiveOldDiscussions` stub. -/
def JsonStore.archiveOldDiscussions : Except String Unit :=
  .error "Discussion features require SQLite storage."

/-- `JsonStore.deleteArchivedDiscussions` stub. -/
def JsonStore.deleteArchivedDiscussions : Except String Unit :=
  .error "Discussion features require SQLite storage."

/-- `JsonStore.appendNote`: push a fresh note onto the state document. -/
def JsonStore.appendNote (s : State) (id text : String) (author : Option String)
    (now : String) : Note × State :=
  let note : Note := { id := id, text := text, author := author, createdAt := now }
  (note, { s with notes := s.notes ++ [note] })

/-- `SqliteStore.appendNote`: `INSERT INTO notes ...` with `id` primary key. -/
def SqliteStore.appendNote (s : State) (id text : String) (author : Option String)
    (now : String) : Except String (Note × State) :=
  if s.notes.any (fun n => n.id == id) then
    .error "UNIQUE constraint failed: notes.id"
  else
    let note : Note := { id := id, text := text, author := author, createdAt := now }
    .ok (note, { s with notes := s.notes ++ [note] })

/-- `JsonStore.listNotes`: an absent, zero or negative limit returns all
notes; a positive limit keeps the `slice(max(length - limit, 0))` tail
of the creation-ordered list. -/
def JsonStore.listNotes (s : State) (limit : Option Int) : List Note :=
  match limit with
  | none => s.notes
  | some n => if n ≤ 0 then s.notes else s.notes.drop (s.notes.length - n.toNat)

/-- `SqliteStore.listNotes`: the same slicing applied to the
`ORDER BY created_at ASC` result. -/
def SqliteStore.listNotes (s : State) (limit : Option Int) : List Note :=
  match limit with
  | none => s.notes
  | some n => if n ≤ 0 then s.notes else s.notes.drop (s.notes.length - n.toNat)

/-- Filters of `listTasks`; truthiness applies to the string filters. -/
structure TaskFilters where
  status : Option TaskStatus := none
  owner : Option String := none
  tag : Option String := none
  limit : Option Int := none

/-- `SqliteStore.listTasks`: dynamic `WHERE` on status/owner, tag filter
in JavaScript, then `slice(0, limit)` for a positive limit — the limit
keeps the FIRST `limit` tasks of the creation-ordered result. -/
def SqliteStore.listTasks (s : State) (f : TaskFilters) : List Task :=
  let rows := s.tasks
  let rows := match f.status with
    | some st => rows.filter (fun t => t.status == st)
    | none => rows
  let rows := if optTruthy f.owner then rows.filter (fun t => t.owner == f.owner) else rows
  let rows := if optTruthy f.tag then
      rows.filter (fun t => (t.tags.getD []).contains (f.tag.getD "")) else rows
  match f.limit with
  | some n => if 0 < n then rows.take n.toNat else rows
  | none => rows

/-- `JsonStore.listTasks`: same filters over the state document. -/
def JsonStore.listTasks (s : State) (f : TaskFilters) : List Task :=
  let rows := s.tasks
  let rows := match f.status with
    | some st => rows.filter (fun t => t.status == st)
    | none => rows
  let rows := if optTruthy f.owner then rows.filter (fun t => t.owner == f.owner) else rows
  let rows := if optTruthy f.tag then
      rows.filter (fun t => (t.tags.getD []).contains (f.tag.getD "")) else rows
  match f.limit with
  | some n => if 0 < n then rows.take n.toNat else rows
  | none => rows

/-- The system note text the gateway appends when every task has left
`todo`, `in_progress` and `review`. -/
def allTasksCompleteText : String :=
  "[SYSTEM] ALL TASKS COMPLETE! Planner: review the work and call project_status_set(\x7b status: \x27complete\x27 \x7d) if satisfied, or create more tasks."

/-- The `[APPROVED]` note text the `task_approve` handler appends. -/
def approvedNoteText (title : String) (feedback : Option String) : String :=
  "[APPROVED] Task \x22" ++ title ++ "\x22 approved by planner." ++
    (if optTruthy feedback then " Feedback: " ++ feedback.getD "" else "")

/-- Does the gateway's completion check pass?  It runs
`listTasks({status})` for `todo`, `in_progress` and `review` and
requires all three results to be empty. -/
def noUnfinishedTasks (s : State) : Prop :=
  (SqliteStore.listTasks s { status := some .todo }).length = 0 ∧
  (SqliteStore.listTasks s { status := some .in_progress }).length = 0 ∧
  (SqliteStore.listTasks s { status := some .review }).length = 0

instance (s : State) : Decidable (noUnfinishedTasks s) := by
  unfold noUnfinishedTasks; infer_instance

/-- The `task_update` tool handler: forward the supplied fields to
`updateTask` (the gateway never forwards isolation or review fields),
then, only when the requested status was `done`, append the completion
note if no task is left in `todo`, `in_progress` or `review`. -/
def Server.taskUpdate (s : State) (u : TaskUpdate) (now noteId : String) :
    Except String (Task × State) :=
  match SqliteStore.updateTask s
      { id := u.id, title := u.title, description := u.description, status := u.status
        complexity := u.complexity, owner := u.owner, tags := u.tags
        metadata := u.metadata } now with
  | .error e => .error e
  | .ok (task, s1) =>
    if u.status = some TaskStatus.done ∧ noUnfinishedTasks s1 then
      match SqliteStore.appendNote s1 noteId allTasksCompleteText (some "system") now with
      | .error e => .error e
      | .ok (_, s2) => .ok (task, s2)
    else
      .ok (task, s1)

/-- The `task_approve` tool handler: approve, append the `[APPROVED]`
note, then append the completion note if no task is left in `todo`,
`in_progress` or `review` (this handler always runs the check). -/
def Server.taskApprove (s : State) (id : String) (feedback : Option String)
    (now noteId1 noteId2 : String) : Except String (Task × State) :=
  match SqliteStore.approveTask s id feedback now with
  | .error e => .error e
  | .ok (task, s1) =>
    match SqliteStore.appendNote s1 noteId1 (approvedNoteText task.title feedback)
        (some "system") now with
    | .error e => .error e
    | .ok (_, s2) =>
      if noUnfinishedTasks s2 then
        match SqliteStore.appendNote s2 noteId2 allTasksCompleteText (some "system") now with
        | .error e => .error e
        | .ok (_, s3) => .ok (task, s3)
      else
        .ok (task, s2)

/-- The main repository's observable version-control state: the checked
out branch and whether a merge is in progress (conflicted). -/
structure RepoState where
  currentBranch : String
  mergeInProgress : Bool := false
deriving DecidableEq

/-- Result type of `mergeWorktree`. -/
structure MergeResult where
  success : Bool
  merged : Bool
  conflicts : Option (List String) := none
  errorMsg : Option String := none
deriving DecidableEq

/-- Outcomes of the external git commands `mergeWorktree` runs, fixed by
the environment.  Commands that only touch the worktree (the WIP commit
and the rebase attempt with its abort) never move the main checkout, so
only the decision-relevant outcomes appear: whether the
`git diff target..worktree --stat` output was empty, whether
`git checkout target` succeeded, and whether the no-fast-forward merge
succeeded or conflicted on a set of files. -/
structure GitEnv where
  defaultBranch : String
  diffEmpty : Bool
  checkoutOk : Bool
  mergeConflicts : Option (List String)

/-- `mergeWorktree` from `worktree.ts`, as a transition on the main
repository state.  With nothing to merge it returns early; otherwise it
records the current branch, checks out the target and merges `--no-ff`.
On a merge failure it collects `git diff --name-only --diff-filter=U`,
aborts the merge and checks the original branch out again. -/
def mergeWorktree (env : GitEnv) (repo : RepoState) (targetArg : Option String) :
    MergeResult × RepoState :=
  let targetBranch := targetArg.getD env.defaultBranch
  if env.diffEmpty then
    ({ success := true, merged := false }, repo)
  else
    let originalBranch := repo.currentBranch
    if env.checkoutOk then
      let afterCheckout := { repo with currentBranch := targetBranch }
      match env.mergeConflicts with
      | none => ({ success := true, merged := true }, afterCheckout)
      | some fs =>
        let conflicted := { afterCheckout with mergeInProgress := true }
        let aborted := { conflicted with mergeInProgress := false }
        let restored := { aborted with currentBranch := originalBranch }
        ({ success := false, merged := false, conflicts := some fs }, restored)
    else
      ({ success := false, merged := false, errorMsg := some "merge abort failed" }, repo)

/-! ## Theorems -/

/-- The active lock the lock-history scenario acquires first. -/
def demoActiveLock : Lock := newLock "src/app.go" (some "impl-1") none "t1"

/-- The same lock after its release flipped it to resolved. -/
def demoResolvedLock : Lock := { demoActiveLock with status := .resolved, updatedAt := "t2" }

/-- Claim C1: the spec's lock-history scenario — acquire, conflicting
second acquire, release, then re-acquire by another owner — run against
the sqlite backend.  The first three steps behave as specified, but the
final `acquireLock` FAILS with a `locks.path` primary-key violation
instead of inserting a new active lock next to the preserved resolved
one: the `locks` table cannot hold a history of more than one lock per
path.  The JSON backend (last conjunct) does succeed and keeps both
locks, which is the behaviour the spec describes. -/
theorem sqlite_lock_reacquire_after_release_fails :
    SqliteStore.acquireLock {} "src/app.go" (some "impl-1") none "t1"
      = .ok (demoActiveLock, { locks := [demoActiveLock] })
    ∧ SqliteStore.acquireLock { locks := [demoActiveLock] } "src/app.go" (some "impl-2") none "t2"
      = .error "Lock already active for src/app.go"
    ∧ SqliteStore.releaseLock { locks := [demoActiveLock] } "src/app.go" (some "impl-1") "t2"
      = .ok (demoResolvedLock, { locks := [demoResolvedLock] })
    ∧ SqliteStore.acquireLock { locks := [demoResolvedLock] } "src/app.go" (some "impl-2") none "t3"
      = .error "UNIQUE constraint failed: locks.path"
    ∧ JsonStore.acquireLock { locks := [demoResolvedLock] } "src/app.go" (some "impl-2") none "t3"
      = .ok (newLock "src/app.go" (some "impl-2") none "t3",
          { locks := [demoResolvedLock, newLock "src/app.go" (some "impl-2") none "t3"] }) := by
  refine ⟨rfl, rfl, rfl, rfl, rfl⟩

/-- Updating the first matching element cannot increase a count, as long
as the update never makes an element newly satisfy the counted predicate. -/
theorem countP_updateFirst_le (pred pr : α → Bool) (f : α → α)
    (h : ∀ x, pred x = true → pr (f x) = true → pr x = true) :
    ∀ xs : List α, (updateFirst pred f xs).countP pr ≤ xs.countP pr := by
  intro xs
  induction xs with
  | nil => simp [updateFirst]
  | cons x xs ih =>
    cases hx : pred x with
    | true =>
      simp only [updateFirst, hx, if_pos, List.countP_cons]
      have hle : (if pr (f x) = true then 1 else 0) ≤ (if pr x = true then 1 else 0) := by
        cases hfx : pr (f x) with
        | true => simp [h x hx hfx]
        | false => simp
      omega
    | false =>
      simp only [updateFirst, hx, List.countP_cons, Bool.false_eq_true, if_false]
      omega

/-- Mapping over a list cannot increase a count, as long as the map
never makes an element newly satisfy the counted predicate. -/
theorem countP_map_le (g : α → α) (pr : α → Bool)
    (h : ∀ x, pr (g x) = true → pr x = true) :
    ∀ xs : List α, (xs.map g).countP pr ≤ xs.countP pr := by
  intro xs
  induction xs with
  | nil => simp
  | cons x xs ih =>
    simp only [List.map_cons, List.countP_cons]
    have hle : (if pr (g x) = true then 1 else 0) ≤ (if pr x = true then 1 else 0) := by
      cases hgx : pr (g x) with
      | true => simp [h x hgx]
      | false => simp
    omega

/-- Appending a fresh active lock for `p` adds one to the active count
of `p` and leaves every other path's count unchanged. -/
theorem activeLockCount_append_new (locks : List Lock) (p q : String)
    (o n : Option String) (now : String) :
    activeLockCount (locks ++ [newLock p o n now]) q
      = activeLockCount locks q + (if p = q then 1 else 0) := by
  by_cases h : p = q <;>
    simp [activeLockCount, List.countP_append, List.countP_cons, newLock, h]

/-- If the acquire-time existence check found no active lock for `p`,
the active count of `p` is zero. -/
theorem activeLockCount_eq_zero_of_not_hasActive (s : State) (p : String)
    (h : hasActiveLock s p = false) : activeLockCount s.locks p = 0 := by
  rw [activeLockCount, List.countP_eq_zero]
  intro l hl
  rw [hasActiveLock, List.any_eq_false] at h
  exact h l hl

/-- The per-path at-most-one-active-lock invariant. -/
def LockInv (s : State) : Prop := ∀ p, activeLockCount s.locks p ≤ 1

/-- One JSON-store lock operation preserves the invariant. -/
theorem jsonApplyLockOp_inv (s : State) (op : LockOp) (h : LockInv s) :
    LockInv (JsonStore.applyLockOp s op) := by
  cases op with
  | acquire p o n now =>
    rw [JsonStore.applyLockOp, JsonStore.acquireLock]
    cases hac : hasActiveLock s p with
    | true => simpa using h
    | false =>
      simp only [Bool.false_eq_true, if_false]
      intro q
      show activeLockCount (s.locks ++ [newLock p o n now]) q ≤ 1
      rw [activeLockCount_append_new]
      by_cases hq : p = q
      · subst hq
        rw [activeLockCount_eq_zero_of_not_hasActive s p hac, if_pos rfl]
      · rw [if_neg hq]
        have := h q
        omega
  | release p o now =>
    rw [JsonStore.applyLockOp, JsonStore.releaseLock]
    cases hfind : findActiveLock s p with
    | none => simpa using h
    | some lock =>
      by_cases hmm : optTruthy o = true ∧ optTruthy lock.owner = true ∧ ¬ o = lock.owner
      · simpa [hmm] using h
      · simp only [hmm, if_neg, if_false]
        intro q
        show activeLockCount
          (updateFirst (fun l => l.path == p && l.status == LockStatus.active)
            (fun l => { l with status := .resolved, updatedAt := now }) s.locks) q ≤ 1
        refine le_trans (countP_updateFirst_le _ _ _ ?_ s.locks) (h q)
        intro x _ hpr
        simp at hpr

/-- One sqlite-store lock operation preserves the invariant. -/
theorem sqliteApplyLockOp_inv (s : State) (op : LockOp) (h : LockInv s) :
    LockInv (SqliteStore.applyLockOp s op) := by
  cases op with
  | acquire p o n now =>
    rw [SqliteStore.applyLockOp, SqliteStore.acquireLock]
    cases hac : hasActiveLock s p with
    | true => simpa using h
    | false =>
      cases hany : s.locks.any (fun l => l.path == p) with
      | true => simpa [hac] using h
      | false =>
        simp only [Bool.false_eq_true, if_false]
        intro q
        show activeLockCount (s.locks ++ [newLock p o n now]) q ≤ 1
        rw [activeLockCount_append_new]
        by_cases hq : p = q
        · subst hq
          rw [activeLockCount_eq_zero_of_not_hasActive s p hac, if_pos rfl]
        · rw [if_neg hq]
          have := h q
          omega
  | release p o now =>
    rw [SqliteStore.applyLockOp, SqliteStore.releaseLock]
    cases hfind : findActiveLock s p with
    | none => simpa using h
    | some lock =>
      by_cases hmm : optTruthy o = true ∧ optTruthy lock.owner = true ∧ ¬ o = lock.owner
      · simpa [hmm] using h
      · simp only [hmm, if_neg, if_false]
        intro q
        show activeLockCount
          (s.locks.map fun l =>
            if l.path == p then { l with status := .resolved, updatedAt := now } else l) q ≤ 1
        refine le_trans (countP_map_le _ _ ?_ s.locks) (h q)
        intro x hx
        by_cases hp : x.path == p
        · simp [hp] at hx
        · simpa [hp] using hx

/-- Every state the JSON store reaches from empty satisfies the
at-most-one-active-lock-per-path invariant. -/
theorem jsonRunLockOps_inv (ops : List LockOp) : LockInv (JsonStore.runLockOps ops) := by
  have aux : ∀ (l : List LockOp) (s : State), LockInv s →
      LockInv (l.foldl JsonStore.applyLockOp s) := by
    intro l
    induction l with
    | nil => intro s hs; exact hs
    | cons op l ih => intro s hs; exact ih _ (jsonApplyLockOp_inv s op hs)
  exact aux ops {} fun p => by simp [activeLockCount]

/-- Every state the sqlite store reaches from empty satisfies the
at-most-one-active-lock-per-path invariant. -/
theorem sqliteRunLockOps_inv (ops : List LockOp) : LockInv (SqliteStore.runLockOps ops) := by
  have aux : ∀ (l : List LockOp) (s : State), LockInv s →
      LockInv (l.foldl SqliteStore.applyLockOp s) := by
    intro l
    induction l with
    | nil => intro s hs; exact hs
    | cons op l ih => intro s hs; exact ih _ (sqliteApplyLockOp_inv s op hs)
  exact aux ops {} fun p => by simp [activeLockCount]

/-- Claim C2 counterexample: a reachable sqlite state (acquire then
release of "src/app.go") has NO active lock for the path, yet
`acquireLock` fails on the locks primary key instead of inserting a new
active lock — refuting "otherwise inserts a new active Lock" for the
sqlite backend. -/
theorem sqlite_acquire_fails_without_active_lock :
    SqliteStore.runLockOps
        [LockOp.acquire "src/app.go" (some "impl-1") none "t1",
         LockOp.release "src/app.go" (some "impl-1") "t2"]
      = { locks := [demoResolvedLock] }
    ∧ hasActiveLock { locks := [demoResolvedLock] } "src/app.go" = false
    ∧ SqliteStore.acquireLock { locks := [demoResolvedLock] } "src/app.go"
        (some "impl-2") none "t3"
      = .error "UNIQUE constraint failed: locks.path" :=
  ⟨rfl, rfl, rfl⟩

/-- Claim C2 (amended): in every reachable state of either backend, at
most one lock per path is active; `acquireLock` fails with the
LockConflict error whenever an active lock exists; otherwise the JSON
backend inserts a new active lock, and the sqlite backend does so
provided no lock row (not even a resolved one) exists for the path.
The check and the insert are a single atomic state transition. -/
theorem lock_invariant_and_acquire_semantics :
    (∀ ops p, activeLockCount (JsonStore.runLockOps ops).locks p ≤ 1
        ∧ activeLockCount (SqliteStore.runLockOps ops).locks p ≤ 1)
  ∧ (∀ s p o n now, hasActiveLock s p = true →
        JsonStore.acquireLock s p o n now = .error ("Lock already active for " ++ p)
        ∧ SqliteStore.acquireLock s p o n now = .error ("Lock already active for " ++ p))
  ∧ (∀ s p o n now, hasActiveLock s p = false →
        JsonStore.acquireLock s p o n now
          = .ok (newLock p o n now, { s with locks := s.locks ++ [newLock p o n now] }))
  ∧ (∀ s p o n now, hasActiveLock s p = false →
        (s.locks.any fun l => l.path == p) = false →
        SqliteStore.acquireLock s p o n now
          = .ok (newLock p o n now, { s with locks := s.locks ++ [newLock p o n now] })) := by
  refine ⟨?_, ?_, ?_, ?_⟩
  · intro ops p
    exact ⟨jsonRunLockOps_inv ops p, sqliteRunLockOps_inv ops p⟩
  · intro s p o n now h
    constructor <;> simp [JsonStore.acquireLock, SqliteStore.acquireLock, h]
  · intro s p o n now h
    simp [JsonStore.acquireLock, h]
  · intro s p o n now h h2
    simp [SqliteStore.acquireLock, h, h2]

/-- Witness for the amended C2 theorem at a concrete state. -/
theorem lock_invariant_and_acquire_semantics_witness :
    JsonStore.acquireLock { locks := [demoActiveLock] } "src/app.go" none none "t9"
      = .error "Lock already active for src/app.go" :=
  (lock_invariant_and_acquire_semantics.2.1 { locks := [demoActiveLock] }
      "src/app.go" none none "t9" (by rfl)).1

/-- An active lock whose owner field is set to the empty string. -/
def emptyOwnerLock : Lock :=
  { path := "file.go", owner := some "", status := .active, createdAt := "t1", updatedAt := "t1" }

/-- Claim C5 counterexample: an active lock whose owner field IS set
(to the empty string) is released by the different, non-empty caller
owner "impl-2" — and the call SUCCEEDS and resolves the lock on both
backends instead of failing with OwnershipMismatch, because the source
guards the check with JavaScript truthiness and the empty string is
falsy. -/
theorem release_mismatched_owner_succeeds_on_empty_owner :
    emptyOwnerLock.owner.isSome = true
    ∧ ¬ "impl-2" = ""
    ∧ ¬ some "impl-2" = emptyOwnerLock.owner
    ∧ JsonStore.releaseLock { locks := [emptyOwnerLock] } "file.go" (some "impl-2") "t2"
      = .ok ({ emptyOwnerLock with status := .resolved, updatedAt := "t2" },
          { locks := [{ emptyOwnerLock with status := .resolved, updatedAt := "t2" }] })
    ∧ SqliteStore.releaseLock { locks := [emptyOwnerLock] } "file.go" (some "impl-2") "t2"
      = .ok ({ emptyOwnerLock with status := .resolved, updatedAt := "t2" },
          { locks := [{ emptyOwnerLock with status := .resolved, updatedAt := "t2" }] }) :=
  ⟨rfl, by decide, by decide, rfl, rfl⟩

/-- Claim C5 (amended): with "owner field is set" strengthened to
"owner field is set to a non-empty string" (the truthy sense the source
uses), `releaseLock` on both backends fails with OwnershipMismatch for
a non-empty caller owner differing from the lock's owner — and, the
error being raised before any write, leaves the lock active and the
state unchanged; it fails with LockNotFound when no active lock exists
for the path; in every other case it flips the found lock to resolved. -/
theorem releaseLock_semantics :
    (∀ s p o now lock, findActiveLock s p = some lock →
        optTruthy lock.owner = true → optTruthy o = true → ¬ o = lock.owner →
        JsonStore.releaseLock s p o now = .error (lockMismatchMsg lock.owner o)
        ∧ SqliteStore.releaseLock s p o now = .error (lockMismatchMsg lock.owner o))
  ∧ (∀ s p o now, findActiveLock s p = none →
        JsonStore.releaseLock s p o now = .error ("Active lock not found for " ++ p)
        ∧ SqliteStore.releaseLock s p o now = .error ("Active lock not found for " ++ p))
  ∧ (∀ s p o now lock, findActiveLock s p = some lock →
        ¬ (optTruthy o = true ∧ optTruthy lock.owner = true ∧ ¬ o = lock.owner) →
        JsonStore.releaseLock s p o now
          = .ok ({ lock with status := .resolved, updatedAt := now },
              { s with locks :=
                  (updateFirst (fun l => l.path == p && l.status == LockStatus.active)
                    (fun l => { l with status := .resolved, updatedAt := now }) s.locks) })
        ∧ SqliteStore.releaseLock s p o now
          = .ok ({ lock with status := .resolved, updatedAt := now },
              { s with locks := (s.locks.map fun l =>
                  if l.path == p then { l with status := .resolved, updatedAt := now } else l) })) := by
  refine ⟨?_, ?_, ?_⟩
  · intro s p o now lock hfind hlo ho hne
    constructor
    · simp [JsonStore.releaseLock, hfind, ho, hlo, hne]
    · simp [SqliteStore.releaseLock, hfind, ho, hlo, hne]
  · intro s p o now hfind
    constructor
    · simp [JsonStore.releaseLock, hfind]
    · simp [SqliteStore.releaseLock, hfind]
  · intro s p o now lock hfind hno
    constructor
    · simp only [JsonStore.releaseLock, hfind, if_neg hno]
    · simp only [SqliteStore.releaseLock, hfind, if_neg hno]

/-- Witness for the amended C5 theorem: a genuinely mismatched non-empty
owner is rejected. -/
theorem releaseLock_semantics_witness :
    JsonStore.releaseLock { locks := [demoActiveLock] } "src/app.go" (some "impl-2") "t2"
      = .error (lockMismatchMsg demoActiveLock.owner (some "impl-2")) :=
  (releaseLock_semantics.1 { locks := [demoActiveLock] } "src/app.go" (some "impl-2") "t2"
      demoActiveLock rfl (by decide) (by decide) (by decide)).1

/-- Claim C6: `submitTaskForReview` on the sqlite backend fails with the
OwnershipMismatch error whenever the task's current owner is not the
caller (a null owner never matches), and on success sets the status to
review, stores the review notes, records the request timestamp, and
keeps the owner; the stored row is updated in place. -/
theorem submitTaskForReview_semantics :
    ∀ s id o notes now t, s.tasks.find? (fun x => x.id == id) = some t →
      (¬ t.owner = some o →
        SqliteStore.submitTaskForReview s id o notes now
          = .error ("Task owned by " ++ optOwnerStr t.owner ++ ", not " ++ o))
      ∧ (t.owner = some o →
        ∃ t2 s2, SqliteStore.submitTaskForReview s id o notes now = .ok (t2, s2)
          ∧ t2.status = .review ∧ t2.reviewNotes = some notes
          ∧ t2.reviewRequestedAt = some now ∧ t2.owner = t.owner
          ∧ s2 = { s with tasks := (s.tasks.map fun x => if x.id == id then t2 else x) }) := by
  intro s id o notes now t hfind
  constructor
  · intro hne
    simp [SqliteStore.submitTaskForReview, hfind, hne]
  · intro hown
    refine ⟨sqliteApplyUpdate t
        { id := id, status := some .review, reviewNotes := some notes
          reviewRequestedAt := some now } now, _, ?_, ?_, ?_, ?_, ?_, rfl⟩
    · simp [SqliteStore.submitTaskForReview, hfind, hown, SqliteStore.updateTask]
    · simp [sqliteApplyUpdate]
    · simp [sqliteApplyUpdate, updOpt]
    · simp [sqliteApplyUpdate, updOpt]
    · simp [sqliteApplyUpdate, updOpt]

/-- A claimed, in-progress task owned by "impl-1". -/
def demoOwnedTask : Task :=
  { id := "task-1", title := "Fix login bug", status := .in_progress
    owner := some "impl-1", createdAt := "t1", updatedAt := "t2" }

/-- Witness for the C6 theorem: a submit by a non-owner is rejected. -/
theorem submitTaskForReview_semantics_witness :
    SqliteStore.submitTaskForReview { tasks := [demoOwnedTask] } "task-1" "impl-2"
        "fixed null check" "t3"
      = .error ("Task owned by " ++ optOwnerStr demoOwnedTask.owner ++ ", not " ++ "impl-2") :=
  (submitTaskForReview_semantics { tasks := [demoOwnedTask] } "task-1" "impl-2"
      "fixed null check" "t3" demoOwnedTask rfl).1 (by decide)

/-- The review workflow scenario: create "Fix login bug" (medium),
claim by "impl-1", submit with notes "fixed null check", approve with
feedback "LGTM"; the returned task of the final approve. -/
def reviewScenario : Except String Task := do
  let (_, s1) ← SqliteStore.createTask {}
      { title := "Fix login bug", complexity := some .medium } "task-1" "t1"
  let (_, s2) ← SqliteStore.claimTask s1 "task-1" "impl-1" "t2"
  let (_, s3) ← SqliteStore.submitTaskForReview s2 "task-1" "impl-1" "fixed null check" "t3"
  let (t4, _) ← SqliteStore.approveTask s3 "task-1" (some "LGTM") "t4"
  return t4

/-- The task value the review scenario ends with. -/
def reviewScenarioFinalTask : Task :=
  { id := "task-1", title := "Fix login bug", status := .done, complexity := .medium
    isolation := .shared, owner := some "impl-1", reviewNotes := some "fixed null check"
    reviewFeedback := some "LGTM", reviewRequestedAt := some "t3"
    createdAt := "t1", updatedAt := "t4" }

/-- Claim C7: `approveTask` fails with the InvalidTransition error when
the task is not in review, and on success sets status done and
reviewFeedback to the supplied feedback, defaulting to "Approved";
moreover the create → claim → submit → approve("LGTM") scenario ends
with status done and reviewFeedback "LGTM". -/
theorem approveTask_semantics :
    (∀ s id fb now t, s.tasks.find? (fun x => x.id == id) = some t →
      (¬ t.status = TaskStatus.review →
        SqliteStore.approveTask s id fb now
          = .error ("Task is not in review status (current: " ++ t.status.toStr ++ ")"))
      ∧ (t.status = TaskStatus.review →
        ∃ t2 s2, SqliteStore.approveTask s id fb now = .ok (t2, s2)
          ∧ t2.status = .done ∧ t2.reviewFeedback = some (fb.getD "Approved")
          ∧ s2 = { s with tasks := (s.tasks.map fun x => if x.id == id then t2 else x) }))
  ∧ reviewScenario = .ok reviewScenarioFinalTask
  ∧ reviewScenarioFinalTask.status = .done
  ∧ reviewScenarioFinalTask.reviewFeedback = some "LGTM" := by
  refine ⟨?_, rfl, rfl, rfl⟩
  intro s id fb now t hfind
  constructor
  · intro hne
    simp [SqliteStore.approveTask, hfind, hne]
  · intro hrev
    refine ⟨sqliteApplyUpdate t
        { id := id, status := some .done, reviewFeedback := some (fb.getD "Approved") } now,
      _, ?_, ?_, ?_, rfl⟩
    · simp [SqliteStore.approveTask, hfind, hrev, SqliteStore.updateTask]
    · simp [sqliteApplyUpdate]
    · simp [sqliteApplyUpdate, updOpt]

/-- A task sitting in review, owned by "impl-1". -/
def demoReviewTask : Task :=
  { id := "task-1", title := "Fix login bug", status := .review
    owner := some "impl-1", reviewNotes := some "fixed null check"
    reviewRequestedAt := some "t3", createdAt := "t1", updatedAt := "t3" }

/-- Witness for the C7 theorem: approving a review task with no
feedback stores "Approved". -/
theorem approveTask_semantics_witness :
    ∃ t2 s2, SqliteStore.approveTask { tasks := [demoReviewTask] } "task-1" none "t4"
        = .ok (t2, s2)
      ∧ t2.status = .done ∧ t2.reviewFeedback = some (Option.getD none "Approved")
      ∧ s2 = { ({ tasks := [demoReviewTask] } : State) with tasks :=
          (({ tasks := [demoReviewTask] } : State).tasks.map
            fun x => if x.id == "task-1" then t2 else x) } :=
  (approveTask_semantics.1 { tasks := [demoReviewTask] } "task-1" none "t4"
      demoReviewTask rfl).2 rfl

/-- Claim C8: `requestTaskChanges` on a task whose status is not review
fails with the InvalidTransition error; the throw happens before any
write, so in the embedding an `.error` result carries no new state and
the stored task — every field, `updatedAt` included — is untouched.
When the task is in review it goes back to `in_progress` with the
feedback recorded and the owner unchanged. -/
theorem requestTaskChanges_semantics :
    ∀ s id fb now t, s.tasks.find? (fun x => x.id == id) = some t →
      (¬ t.status = TaskStatus.review →
        SqliteStore.requestTaskChanges s id fb now
          = .error ("Task is not in review status (current: " ++ t.status.toStr ++ ")"))
      ∧ (t.status = TaskStatus.review →
        ∃ t2 s2, SqliteStore.requestTaskChanges s id fb now = .ok (t2, s2)
          ∧ t2.status = .in_progress ∧ t2.reviewFeedback = some fb ∧ t2.owner = t.owner
          ∧ s2 = { s with tasks := (s.tasks.map fun x => if x.id == id then t2 else x) }) := by
  intro s id fb now t hfind
  constructor
  · intro hne
    simp [SqliteStore.requestTaskChanges, hfind, hne]
  · intro hrev
    refine ⟨sqliteApplyUpdate t
        { id := id, status := some .in_progress, reviewFeedback := some fb } now,
      _, ?_, ?_, ?_, ?_, rfl⟩
    · simp [SqliteStore.requestTaskChanges, hfind, hrev, SqliteStore.updateTask]
    · simp [sqliteApplyUpdate]
    · simp [sqliteApplyUpdate, updOpt]
    · simp [sqliteApplyUpdate, updOpt]

/-- Witness for the C8 theorem: requesting changes on an in-progress
task fails with the InvalidTransition error. -/
theorem requestTaskChanges_semantics_witness :
    SqliteStore.requestTaskChanges { tasks := [demoOwnedTask] } "task-1" "please add tests" "t3"
      = .error ("Task is not in review status (current: "
          ++ demoOwnedTask.status.toStr ++ ")") :=
  (requestTaskChanges_semantics { tasks := [demoOwnedTask] } "task-1" "please add tests" "t3"
      demoOwnedTask rfl).1 (by decide)

/-- The one unfinished task of the completion-note counterexample. -/
def soloTodoTask : Task :=
  { id := "task-1", title := "only task", status := .todo, createdAt := "t1", updatedAt := "t1" }

/-- The same task after the gateway moved it to blocked. -/
def soloBlockedTask : Task := { soloTodoTask with status := .blocked, updatedAt := "t2" }

/-- Claim C3 counterexample: the gateway's own `task_update` operation
moves the only remaining `todo` task to `blocked`.  The resulting state
has zero tasks in todo, in_progress and review, yet no note at all is
emitted (the completion check only runs when the requested status was
`done`), so callers of `listNotes` see no completion announcement. -/
theorem task_blocked_transition_emits_no_note :
    Server.taskUpdate { tasks := [soloTodoTask] } { id := "task-1", status := some .blocked }
        "t2" "note-1"
      = .ok (soloBlockedTask, { tasks := [soloBlockedTask] })
    ∧ noUnfinishedTasks { tasks := [soloBlockedTask] }
    ∧ SqliteStore.listNotes { tasks := [soloBlockedTask] } none = [] :=
  ⟨rfl, by decide, rfl⟩

/-- Claim C3 (amended): the completion note is a gateway side effect,
emitted when a `task_update` whose requested status is `done` — or any
`task_approve` — leaves zero tasks in todo, in_progress and review; in
those cases the note text is visible among the stored notes.  (A
transition that empties the three statuses by other means, such as an
update to `blocked`, emits nothing — see the counterexample.) -/
theorem completion_note_on_done_update_and_approve :
    (∀ s u now nid task s2, Server.taskUpdate s u now nid = .ok (task, s2) →
        u.status = some TaskStatus.done → noUnfinishedTasks s2 →
        allTasksCompleteText ∈ s2.notes.map Note.text)
  ∧ (∀ s id fb now n1 n2 task s2, Server.taskApprove s id fb now n1 n2 = .ok (task, s2) →
        noUnfinishedTasks s2 →
        allTasksCompleteText ∈ s2.notes.map Note.text) := by
  constructor
  · intro s u now nid task s2 h hdone hzero
    rw [Server.taskUpdate] at h
    cases hup : SqliteStore.updateTask s
        { id := u.id, title := u.title, description := u.description, status := u.status
          complexity := u.complexity, owner := u.owner, tags := u.tags
          metadata := u.metadata } now with
    | error e => rw [hup] at h; exact absurd h (by simp)
    | ok pr =>
      obtain ⟨t1, s1⟩ := pr
      rw [hup] at h
      dsimp only at h
      by_cases hcond : u.status = some TaskStatus.done ∧ noUnfinishedTasks s1
      · rw [if_pos hcond] at h
        cases hap : SqliteStore.appendNote s1 nid allTasksCompleteText (some "system") now with
        | error e => rw [hap] at h; exact absurd h (by simp)
        | ok pr2 =>
          obtain ⟨nt, s2x⟩ := pr2
          rw [hap] at h
          dsimp only at h
          have hinj := h
          simp only [Except.ok.injEq, Prod.mk.injEq] at hinj
          have hs2 : s2 = s2x := hinj.2.symm
          rw [SqliteStore.appendNote] at hap
          by_cases hdup : ((s1.notes.any fun n => n.id == nid) : Bool)
          · rw [if_pos hdup] at hap; exact absurd hap (by simp)
          · rw [if_neg hdup] at hap
            simp only [Except.ok.injEq, Prod.mk.injEq] at hap
            have hnotes : s2x.notes = s1.notes
                ++ [{ id := nid, text := allTasksCompleteText, author := some "system"
                      createdAt := now }] := by
              rw [← hap.2]
            rw [hs2, hnotes]
            simp
      · rw [if_neg hcond] at h
        have hinj := h
        simp only [Except.ok.injEq, Prod.mk.injEq] at hinj
        exact absurd ⟨hdone, by rw [hinj.2]; exact hzero⟩ hcond
  · intro s id fb now n1 n2 task s2 h hzero
    rw [Server.taskApprove] at h
    cases hap : SqliteStore.approveTask s id fb now with
    | error e => rw [hap] at h; exact absurd h (by simp)
    | ok pr =>
      obtain ⟨t1, s1⟩ := pr
      rw [hap] at h
      dsimp only at h
      cases han1 : SqliteStore.appendNote s1 n1 (approvedNoteText t1.title fb)
          (some "system") now with
      | error e => rw [han1] at h; exact absurd h (by simp)
      | ok pr2 =>
        obtain ⟨nt1, sA⟩ := pr2
        rw [han1] at h
        dsimp only at h
        by_cases hcond : noUnfinishedTasks sA
        · rw [if_pos hcond] at h
          cases han2 : SqliteStore.appendNote sA n2 allTasksCompleteText
              (some "system") now with
          | error e => rw [han2] at h; exact absurd h (by simp)
          | ok pr3 =>
            obtain ⟨nt2, sB⟩ := pr3
            rw [han2] at h
            dsimp only at h
            have hinj := h
            simp only [Except.ok.injEq, Prod.mk.injEq] at hinj
            have hs2 : s2 = sB := hinj.2.symm
            rw [SqliteStore.appendNote] at han2
            by_cases hdup : ((sA.notes.any fun n => n.id == n2) : Bool)
            · rw [if_pos hdup] at han2; exact absurd han2 (by simp)
            · rw [if_neg hdup] at han2
              simp only [Except.ok.injEq, Prod.mk.injEq] at han2
              have hnotes : sB.notes = sA.notes
                  ++ [{ id := n2, text := allTasksCompleteText, author := some "system"
                        createdAt := now }] := by
                rw [← han2.2]
              rw [hs2, hnotes]
              simp
        · rw [if_neg hcond] at h
          have hinj := h
          simp only [Except.ok.injEq, Prod.mk.injEq] at hinj
          exact absurd (by rw [hinj.2]; exact hzero) hcond

/-- The task value the approve-handler demo ends with. -/
def approveDemoTask : Task :=
  { demoReviewTask with status := .done, reviewFeedback := some "LGTM", updatedAt := "t4" }

/-- The state the approve-handler demo ends with: both gateway notes
appended after the single task was approved. -/
def approveDemoState : State :=
  { tasks := [approveDemoTask]
    notes := [{ id := "note-1", text := approvedNoteText demoReviewTask.title (some "LGTM")
                author := some "system", createdAt := "t4" }
              , { id := "note-2", text := allTasksCompleteText
                  author := some "system", createdAt := "t4" }] }

/-- Witness for the amended C3 theorem: approving the single review
task leaves nothing unfinished and the completion note is visible. -/
theorem completion_note_witness :
    allTasksCompleteText ∈ approveDemoState.notes.map Note.text :=
  completion_note_on_done_update_and_approve.2 { tasks := [demoReviewTask] } "task-1"
    (some "LGTM") "t4" "note-1" "note-2" approveDemoTask approveDemoState
    (by rfl) (by decide)

/-- Claim C4 counterexample: `JsonStore.createTask` DOES accept and
store the task's complexity (here `critical`, not the `medium`
default), so the file-backed store is not free of complexity fields. -/
theorem json_createTask_stores_complexity :
    ((JsonStore.createTask {} { title := "t", complexity := some .critical } "id-1" "t1").1).complexity
      = TaskComplexity.critical
    ∧ ((JsonStore.createTask {} { title := "t", complexity := some .critical } "id-1" "t1").2).tasks
      = [buildTask { title := "t", complexity := some .critical } "id-1" "t1"] :=
  ⟨rfl, rfl⟩

/-- Claim C4 (amended): on the file-backed store every review-workflow
operation and every discussion operation fails explicitly, directing the
caller to the SQLite backend; `updateTask` ignores the complexity,
isolation and review fields of its input, and `createTask` never sets
review fields — but `createTask` does accept and store `complexity` and
`isolation`. -/
theorem json_backend_capabilities :
    JsonStore.submitTaskForReview
      = .error "Review workflow requires SQLite storage. Set storage: \x27sqlite\x27 in config."
  ∧ JsonStore.approveTask = .error "Review workflow requires SQLite storage."
  ∧ JsonStore.requestTaskChanges = .error "Review workflow requires SQLite storage."
  ∧ JsonStore.createDiscussion
      = .error "Discussion features require SQLite storage. Set storage: \x27sqlite\x27 in config."
  ∧ JsonStore.replyToDiscussion = .error "Discussion features require SQLite storage."
  ∧ JsonStore.resolveDiscussion = .error "Discussion features require SQLite storage."
  ∧ JsonStore.getDiscussion = .error "Discussion features require SQLite storage."
  ∧ JsonStore.listDiscussions = .error "Discussion features require SQLite storage."
  ∧ JsonStore.archiveDiscussion = .error "Discussion features require SQLite storage."
  ∧ JsonStore.archiveOldDiscussions = .error "Discussion features require SQLite storage."
  ∧ JsonStore.deleteArchivedDiscussions = .error "Discussion features require SQLite storage."
  ∧ (∀ s u now t t2 s2, s.tasks.find? (fun x => x.id == u.id) = some t →
      JsonStore.updateTask s u now = .ok (t2, s2) →
      t2.complexity = t.complexity ∧ t2.isolation = t.isolation
      ∧ t2.reviewNotes = t.reviewNotes ∧ t2.reviewFeedback = t.reviewFeedback
      ∧ t2.reviewRequestedAt = t.reviewRequestedAt)
  ∧ (∀ input id now,
      ((JsonStore.createTask {} input id now).1).reviewNotes = none
      ∧ ((JsonStore.createTask {} input id now).1).reviewFeedback = none
      ∧ ((JsonStore.createTask {} input id now).1).reviewRequestedAt = none
      ∧ ((JsonStore.createTask {} input id now).1).complexity = input.complexity.getD .medium
      ∧ ((JsonStore.createTask {} input id now).1).isolation = input.isolation.getD .shared) := by
  refine ⟨rfl, rfl, rfl, rfl, rfl, rfl, rfl, rfl, rfl, rfl, rfl, ?_, ?_⟩
  · intro s u now t t2 s2 hfind h
    rw [JsonStore.updateTask] at h
    rw [hfind] at h
    dsimp only at h
    simp only [Except.ok.injEq, Prod.mk.injEq] at h
    rw [← h.1]
    exact ⟨rfl, rfl, rfl, rfl, rfl⟩
  · intro input id now
    exact ⟨rfl, rfl, rfl, rfl, rfl⟩

/-- Witness for the amended C4 theorem: updating a critical task's
status through the JSON backend leaves complexity and review fields
alone. -/
theorem json_backend_capabilities_witness :
    ∃ t2 s2, JsonStore.updateTask
        { tasks := [{ demoReviewTask with complexity := .critical }] }
        { id := "task-1", status := some .done } "t9" = .ok (t2, s2)
      ∧ t2.complexity = TaskComplexity.critical
      ∧ t2.reviewNotes = demoReviewTask.reviewNotes := by
  refine ⟨jsonApplyUpdate { demoReviewTask with complexity := .critical }
      { id := "task-1", status := some .done } "t9", _, rfl, ?_, ?_⟩
  · exact (json_backend_capabilities.2.2.2.2.2.2.2.2.2.2.2.1
      { tasks := [{ demoReviewTask with complexity := .critical }] }
      { id := "task-1", status := some .done } "t9"
      { demoReviewTask with complexity := .critical }
      (jsonApplyUpdate { demoReviewTask with complexity := .critical }
        { id := "task-1", status := some .done } "t9") _ rfl rfl).1
  · exact (json_backend_capabilities.2.2.2.2.2.2.2.2.2.2.2.1
      { tasks := [{ demoReviewTask with complexity := .critical }] }
      { id := "task-1", status := some .done } "t9"
      { demoReviewTask with complexity := .critical }
      (jsonApplyUpdate { demoReviewTask with complexity := .critical }
        { id := "task-1", status := some .done } "t9") _ rfl rfl).2.2.1

/-- Claim C9: whenever the no-fast-forward merge conflicts (and the
earlier steps reached it: there was something to merge and the checkout
of the target branch succeeded), `mergeWorktree` returns success=false
with exactly the conflicting file list, and the main repository ends on
the branch it started on, with no merge left in progress. -/
theorem mergeWorktree_conflict_restores_branch :
    ∀ env repo targetArg fs,
      env.diffEmpty = false → env.checkoutOk = true → env.mergeConflicts = some fs →
      (mergeWorktree env repo targetArg).1.success = false
      ∧ (mergeWorktree env repo targetArg).1.merged = false
      ∧ (mergeWorktree env repo targetArg).1.conflicts = some fs
      ∧ (mergeWorktree env repo targetArg).2.currentBranch = repo.currentBranch
      ∧ (mergeWorktree env repo targetArg).2.mergeInProgress = false := by
  intro env repo targetArg fs hdiff hck hmc
  simp [mergeWorktree, hdiff, hck, hmc]

/-- Witness for the C9 theorem at a concrete environment. -/
theorem mergeWorktree_conflict_restores_branch_witness :
    (mergeWorktree
        { defaultBranch := "main", diffEmpty := false, checkoutOk := true
          mergeConflicts := some ["src/app.go"] }
        { currentBranch := "feature" } none).1.conflicts = some ["src/app.go"]
    ∧ (mergeWorktree
        { defaultBranch := "main", diffEmpty := false, checkoutOk := true
          mergeConflicts := some ["src/app.go"] }
        { currentBranch := "feature" } none).2.currentBranch = "feature" := by
  have h := mergeWorktree_conflict_restores_branch
    { defaultBranch := "main", diffEmpty := false, checkoutOk := true
      mergeConflicts := some ["src/app.go"] }
    { currentBranch := "feature" } none ["src/app.go"] rfl rfl rfl
  exact ⟨h.2.2.1, h.2.2.2.1⟩

/-- Claim C10: `listNotes` with a positive limit `n` returns the tail of
the creation-ordered note list — the last `min n count` notes, still in
ascending creation order — on both backends; with an absent, zero or
negative limit it returns all notes; `listTasks` instead keeps the FIRST
`n` tasks of its (unfiltered here) creation-ordered result. -/
theorem listNotes_returns_latest :
    (∀ s n, 0 < n →
        JsonStore.listNotes s (some n) = s.notes.drop (s.notes.length - n.toNat)
        ∧ SqliteStore.listNotes s (some n) = s.notes.drop (s.notes.length - n.toNat)
        ∧ (JsonStore.listNotes s (some n)).length = min n.toNat s.notes.length)
  ∧ (∀ s, JsonStore.listNotes s none = s.notes ∧ SqliteStore.listNotes s none = s.notes)
  ∧ (∀ s n, n ≤ 0 →
        JsonStore.listNotes s (some n) = s.notes
        ∧ SqliteStore.listNotes s (some n) = s.notes)
  ∧ (∀ s n, 0 < n →
        SqliteStore.listTasks s { limit := some n } = s.tasks.take n.toNat
        ∧ JsonStore.listTasks s { limit := some n } = s.tasks.take n.toNat) := by
  refine ⟨?_, ?_, ?_, ?_⟩
  · intro s n hn
    have hns : ¬ n ≤ 0 := not_le.mpr hn
    refine ⟨by simp [JsonStore.listNotes, hns], by simp [SqliteStore.listNotes, hns], ?_⟩
    simp [JsonStore.listNotes, hns, List.length_drop]
    omega
  · intro s
    exact ⟨rfl, rfl⟩
  · intro s n hn
    exact ⟨by simp [JsonStore.listNotes, hn], by simp [SqliteStore.listNotes, hn]⟩
  · intro s n hn
    exact ⟨by simp [SqliteStore.listTasks, optTruthy, hn],
      by simp [JsonStore.listTasks, optTruthy, hn]⟩

/-- Three notes used by the listNotes witness. -/
def demoNotes : List Note :=
  [{ id := "n1", text := "first", createdAt := "t1" }
   , { id := "n2", text := "second", createdAt := "t2" }
   , { id := "n3", text := "third", createdAt := "t3" }]

/-- Witness for the C10 theorem: limit 2 keeps the last two notes while
the task limit keeps the first entries. -/
theorem listNotes_returns_latest_witness :
    JsonStore.listNotes { notes := demoNotes } (some 2)
      = demoNotes.drop (demoNotes.length - (2 : Int).toNat) :=
  ((listNotes_returns_latest.1 { notes := demoNotes } 2 (by decide)).1)

end Lockstep